import Mathlib

/-!
# Aegis Gateway — policy engine and gateway pipeline, shallow embedding

Shallow embedding of the policy engine (`internal/policy/policy.go`) and the
gateway request pipeline (`internal/gateway/gateway.go`) of the Aegis Gateway
repository, together with theorems settling the frozen claims about it.

Modelling conventions:
* Go `interface{}` values carried by YAML/JSON maps become the inductive
  `Value`.  Go `float64` is modelled by `Rat` (exact-value model: the claims
  only exercise magnitudes where `float64` arithmetic and comparison are
  exact).  Go `int` and `int64` are merged into one constructor since the
  source converts both to `float64` identically.
* Go maps `map[string]interface{}` become association lists with `alookup`
  (Go map keys are unique, so first-match lookup agrees with map lookup).
* The policy store `map[string]*Policy` becomes a list of key/policy pairs;
  its list order stands for the (unspecified) Go map iteration order, and
  the claims are stated relative to that encounter order, exactly as the
  spec states them.
* File I/O is factored out: a file's parse outcome enters the model as an
  `Option Policy` argument (`none` = read or YAML-parse failure), so
  `loadPolicyFile` becomes a pure store transformer that the source's
  error handling is traced onto line by line.
-/

/-- Dynamic (`interface{}`) value as produced by YAML/JSON unmarshalling.
`vInt` covers Go `int` and `int64` (the source treats them identically);
`vFloat` models `float64` by its exact rational value; `vOther` covers every
dynamic type the source's type switches do not recognize (maps, nil, ...). -/
inductive Value where
  | vStr (s : String)
  | vInt (n : Int)
  | vFloat (q : Rat)
  | vBool (b : Bool)
  | vList (vs : List Value)
  | vOther

/-- Association-list lookup, modelling Go map indexing `m[k]` with its
presence bit (`none` = key absent). -/
def alookup {α : Type} : List (String × α) → String → Option α
  | [], _ => none
  | kv :: rest, k => if kv.1 == k then some kv.2 else alookup rest k

/-- Request/condition parameter map (`map[string]interface{}`). -/
abbrev Params := List (String × Value)

/-- The numeric type switch shared by the `amount` and `max_amount` checks
(policy.go lines 229-250): `float64`, `int`, `int64` convert, everything
else falls to the `default` branch. -/
def toNumber : Value → Option Rat
  | .vFloat q => some q
  | .vInt n => some (n : Rat)
  | _ => none

/-- Go type assertion `v.(string)`. -/
def asString : Value → Option String
  | .vStr s => some s
  | _ => none

/-- Go type assertion `v.([]interface{})`. -/
def asList : Value → Option (List Value)
  | .vList vs => some vs
  | _ => none

/-- Round to nearest integer, ties to even — the rounding Go's `fmt`
verb `%.0f` applies when formatting a `float64` with zero fraction digits.
Computed on the numerator/denominator with integer arithmetic: `f` is the
floor of `q` and `r` its (nonnegative) remainder, compared against half the
denominator. -/
def roundHalfEven (q : Rat) : Int :=
  let n := q.num
  let d := (q.den : Int)
  let f := Int.fdiv n d
  let r := n - f * d
  if 2 * r < d then f
  else if d < 2 * r then f + 1
  else if f % 2 = 0 then f else f + 1

/-- Rendering of `%.0f` (policy.go line 253): the bound rounded to an
integer, in decimal. -/
def formatF0 (q : Rat) : String := toString (roundHalfEven q)

/-- The `max_amount` block of `checkConditions` (policy.go lines 226-256):
key presence is tested without a type assertion, the check runs only when
`params.amount` is present, the amount's type is checked before the bound's,
and the check fails exactly when `amount > max_amount`. -/
def checkMaxAmount (conditions params : Params) : Option String :=
  match alookup conditions ("max_amount") with
  | none => none
  | some maxAmount =>
    match alookup params ("amount") with
    | none => none
    | some amount =>
      match toNumber amount with
      | none => some ("amount must be a number")
      | some amountFloat =>
        match toNumber maxAmount with
        | none => some ("max_amount must be a number")
        | some maxFloat =>
          if amountFloat > maxFloat then
            some ("Amount exceeds max_amount=" ++ formatF0 maxFloat)
          else none

/-- The `currencies` block (policy.go lines 259-278): the combined
lookup-and-assert `conditions["currencies"].([]interface{})` silently skips
the whole block when the key is absent **or** its value is not a list;
non-string members of the list are skipped by the membership loop. -/
def checkCurrencies (conditions params : Params) : Option String :=
  match (alookup conditions ("currencies")).bind asList with
  | none => none
  | some currencies =>
    match alookup params ("currency") with
    | none => none
    | some currency =>
      match asString currency with
      | none => some ("currency must be a string")
      | some currencyStr =>
        if currencies.any (fun c =>
            match asString c with
            | some cStr => cStr == currencyStr
            | none => false) then none
        else some ("Currency " ++ currencyStr ++ " not in allowed currencies")

/-- The `folder_prefix` block (policy.go lines 281-292): the combined
lookup-and-assert `conditions["folder_prefix"].(string)` silently skips the
block when the key is absent or its value is not a string.  The source's
byte test `len(path) < len(pfx) || path[:len(pfx)] != pfx` is the negation
of a byte-level prefix test, which on (valid UTF-8) strings coincides with
`String.isPrefixOf`. -/
def checkFolderPrefix (conditions params : Params) : Option String :=
  match (alookup conditions ("folder_prefix")).bind asString with
  | none => none
  | some pfx =>
    match alookup params ("path") with
    | none => none
    | some path =>
      match asString path with
      | none => some ("path must be a string")
      | some pathStr =>
        if pfx.isPrefixOf pathStr then none
        else some ("Path must start with prefix " ++ pfx)

/-- Early-return composition of the three blocks: the first block to
produce an error decides the result (Go `return` inside `checkConditions`). -/
def firstErr : Option String → Option String → Option String
  | some e, _ => some e
  | none, r => r

/-- `checkConditions` (policy.go lines 224-295): run the three condition
blocks in source order, returning the first error, `none` on success. -/
def checkConditions (conditions params : Params) : Option String :=
  firstErr (checkMaxAmount conditions params)
    (firstErr (checkCurrencies conditions params) (checkFolderPrefix conditions params))

/-- `ToolAllowance` (policy.go lines 27-31): one grant.  `conditions` is
`Option`-valued because the source distinguishes a nil map (`allow.Conditions
!= nil` at line 209) from a present one. -/
structure ToolAllowance where
  tool : String
  actions : List String
  conditions : Option Params

/-- `AgentPolicy` (policy.go lines 21-24). -/
structure AgentPolicy where
  id : String
  allow : List ToolAllowance

/-- `Policy` (policy.go lines 15-18). -/
structure Policy where
  version : String
  agents : List AgentPolicy

/-- The policy store `map[string]*Policy` keyed by file path; list order
models the encounter order of Go's (unspecified) map iteration. -/
abbrev Store := List (String × Policy)

/-- The default denial message (policy.go line 220). -/
def notAllowedMsg (agentID tool action : String) : String :=
  "Agent " ++ agentID ++ " is not allowed to perform action " ++ action ++
    " on tool " ++ tool

/-- Tool/action matching inside `Evaluate` (policy.go lines 191-206):
`allow.Tool == tool` and the inner loop over `allow.Actions`. -/
def allowMatches (a : ToolAllowance) (tool action : String) : Bool :=
  a.tool == tool && a.actions.contains action

/-- The body `Evaluate` runs on a matching allowance (policy.go lines
208-215): condition failure denies with the error text, otherwise allow. -/
def decideAllowance (a : ToolAllowance) (params : Params) : Bool × String :=
  match a.conditions with
  | some conds =>
    match checkConditions conds params with
    | some e => (false, e)
    | none => (true, "")
  | none => (true, "")

/-- The inner allowance loop of `Evaluate` (policy.go lines 190-216):
non-matching allowances are skipped, the first matching one decides. -/
def evalAllowList : List ToolAllowance → String → String → Params → Option (Bool × String)
  | [], _, _, _ => none
  | a :: rest, tool, action, params =>
    if allowMatches a tool action then some (decideAllowance a params)
    else evalAllowList rest tool action params

/-- The agent loop of `Evaluate` (policy.go lines 185-217): agents with a
different id are skipped; an agent entry whose allowances all fail to match
does not stop the scan. -/
def evalAgentList : List AgentPolicy → String → String → String → Params → Option (Bool × String)
  | [], _, _, _, _ => none
  | ag :: rest, agentID, tool, action, params =>
    if ag.id == agentID then
      match evalAllowList ag.allow tool action params with
      | some res => some res
      | none => evalAgentList rest agentID tool action params
    else evalAgentList rest agentID tool action params

/-- The policy loop of `Evaluate` (policy.go line 184). -/
def evalPolicyList : List Policy → String → String → String → Params → Option (Bool × String)
  | [], _, _, _, _ => none
  | p :: rest, agentID, tool, action, params =>
    match evalAgentList p.agents agentID tool action params with
    | some res => some res
    | none => evalPolicyList rest agentID tool action params

/-- `Evaluate` (policy.go lines 179-221): scan all stored policies in
encounter order; if no allowance matches, deny with the default message. -/
def Evaluate (store : Store) (agentID tool action : String) (params : Params) : Bool × String :=
  match evalPolicyList (store.map (fun kv => kv.2)) agentID tool action params with
  | some res => res
  | none => (false, notAllowedMsg agentID tool action)

/-- The matching allowances one agent entry contributes, in order. -/
def agentMatchList (ag : AgentPolicy) (agentID tool action : String) : List ToolAllowance :=
  if ag.id == agentID then ag.allow.filter (fun a => allowMatches a tool action) else []

/-- The matching allowances one policy contributes, in order. -/
def policyMatchList (p : Policy) (agentID tool action : String) : List ToolAllowance :=
  p.agents.flatMap (fun ag => agentMatchList ag agentID tool action)

/-- All stored allowances matching (agent, tool, action), in the order
`Evaluate` encounters them. -/
def matchingAllowances (store : Store) (agentID tool action : String) : List ToolAllowance :=
  (store.map (fun kv => kv.2)).flatMap (fun p => policyMatchList p agentID tool action)

/-- The allowance loop of `validatePolicy` (policy.go lines 130-137),
returning the first error. -/
def validateAllowList : List ToolAllowance → Option String
  | [] => none
  | a :: rest =>
    if a.tool == "" then some ("tool name is required")
    else if a.actions.isEmpty then
      some ("at least one action is required for tool " ++ a.tool)
    else validateAllowList rest

/-- The agent loop of `validatePolicy` (policy.go lines 126-138). -/
def validateAgentList : List AgentPolicy → Option String
  | [] => none
  | ag :: rest =>
    if ag.id == "" then some ("agent ID is required")
    else
      match validateAllowList ag.allow with
      | some e => some e
      | none => validateAgentList rest

/-- `validatePolicy` (policy.go lines 121-141): `some` an error message,
`none` when the policy is structurally valid. -/
def validatePolicy (p : Policy) : Option String :=
  if p.version == "" then some ("policy version is required")
  else validateAgentList p.agents

/-- Go map assignment `m[key] = p`: replace the existing entry for `key` in
place, or append a fresh one. -/
def storeInsert (store : Store) (key : String) (p : Policy) : Store :=
  if store.any (fun kv => kv.1 == key) then
    store.map (fun kv => if kv.1 == key then (key, p) else kv)
  else store ++ [(key, p)]

/-- `loadPolicyFile` (policy.go lines 96-118) as a pure store transformer.
The file's read/parse outcome is the `parsed` argument (`none` = read error
or YAML parse error).  Returns the new store and `some` error text on
failure; on any failure the store is returned untouched — the entry is
published only after validation succeeds. -/
def loadPolicyFile (store : Store) (filePath : String) (parsed : Option Policy) :
    Store × Option String :=
  match parsed with
  | none => (store, some ("failed to read or parse"))
  | some policy =>
    match validatePolicy policy with
    | some e => (store, some ("invalid policy: " ++ e))
    | none => (storeInsert store filePath policy, none)

/-- One directory entry as `loadAllPolicies` sees it: its name, whether it
is a directory, and the outcome of reading+parsing it (only consulted when
the entry is actually loaded). -/
structure DirEntry where
  name : String
  isDir : Bool
  parsed : Option Policy

/-- `filepath.Ext`: the suffix beginning at the final dot of the file name,
`""` when the name has no dot (names here contain no path separator). -/
def fileExt (name : String) : String :=
  let cs := name.toList
  if cs.contains ('.') then
    String.mk (('.') :: (cs.reverse.takeWhile (fun c => c != '.')).reverse)
  else ""

/-- `filepath.Join` for a flat file name inside a directory. -/
def joinPath (dir name : String) : String := dir ++ ("/") ++ name

/-- The skip test of `loadAllPolicies` (policy.go line 81): directories and
files without a `.yaml`/`.yml` extension are skipped (Go `||` binds looser
than `&&`). -/
def skipEntry (e : DirEntry) : Bool :=
  e.isDir || (!(fileExt e.name == (".yaml")) && !(fileExt e.name == (".yml")))

/-- The body of the entry loop of `loadAllPolicies` (policy.go lines
80-90): skip directories and unrecognized extensions, otherwise load the
file; a failing `loadPolicyFile` is logged and ignored, so it leaves the
store exactly as it was. -/
def loadStep (baseDir : String) (st : Store) (e : DirEntry) : Store :=
  if skipEntry e then st
  else (loadPolicyFile st (joinPath baseDir e.name) e.parsed).1

/-- `loadAllPolicies` (policy.go lines 71-93): fold the entry loop over the
directory listing. -/
def loadAllPolicies (store : Store) (baseDir : String) (entries : List DirEntry) : Store :=
  entries.foldl (loadStep baseDir) store

/-- The remove-event branch of `watchForChanges` (policy.go lines 162-167):
`delete(pe.policies, event.Name)`, unconditional. -/
def removePolicy (store : Store) (name : String) : Store :=
  store.filter (fun kv => !(kv.1 == name))

/-- Outcome of reading and JSON-parsing the request body (gateway.go lines
62-77): a read failure, an empty body, bytes that do not unmarshal into a
JSON object, or a parsed parameter object. -/
inductive RequestBody where
  | readError (e : String)
  | empty
  | malformed (e : String)
  | obj (params : Params)

/-- One inbound request as `HandleRequest` sees it.  `agentID` is the
`X-Agent-ID` header value; Go's `Header.Get` returns `""` when the header
is absent. -/
structure GatewayRequest where
  path : String
  agentID : String
  body : RequestBody

/-- What `HandleRequest` writes back (gateway.go): a plain-text error with
its HTTP status, the JSON policy-violation response with its status, or the
hand-off to `forwardRequest` (whose downstream outcome is out of scope). -/
inductive GatewayResponse where
  | plainError (status : Nat) (msg : String)
  | jsonError (status : Nat) (errKind reason : String)
  | forward (baseURL action : String)
deriving DecidableEq

/-- The static tool registry (gateway.go lines 33-36). -/
def defaultToolURLs : List (String × String) :=
  [("payments", "http://localhost:8081"), ("files", "http://localhost:8082")]

/-- gateway.go line 47. -/
def invalidPathMsg : String := "Invalid path. Expected: /tools/:tool/:action"

/-- gateway.go line 57. -/
def missingHeaderMsg : String := "Missing X-Agent-ID header"

/-- gateway.go line 64. -/
def readBodyErrMsg (e : String) : String := "Failed to read request body: " ++ e

/-- gateway.go line 72. -/
def invalidJsonMsg (e : String) : String := "Invalid JSON: " ++ e

/-- gateway.go line 114. -/
def unknownToolMsg (tool : String) : String := "Unknown tool: " ++ tool

/-- Character-level split on `/`, accumulating the current segment in
reverse: `strings.Split(s, "/")` for the one-byte separator (byte-level and
character-level splitting coincide for an ASCII separator). -/
def splitSlash : List Char → List Char → List String
  | [], acc => [String.mk acc.reverse]
  | c :: rest, acc =>
    if c = '/' then String.mk acc.reverse :: splitSlash rest []
    else splitSlash rest (c :: acc)

/-- Path splitting of gateway.go line 45:
`strings.Split(strings.TrimPrefix(path, "/"), "/")` (at most one leading
slash is trimmed). -/
def pathParts (p : String) : List String :=
  match p.toList with
  | '/' :: rest => splitSlash rest []
  | cs => splitSlash cs []

/-- The tail of `HandleRequest` after parsing succeeds (gateway.go lines
83-128): evaluate, deny with 403 on refusal, then resolve the tool's base
address (400 when unregistered) and hand off to `forwardRequest`. -/
def evaluateAndForward (store : Store) (agentID tool action : String) (params : Params) :
    GatewayResponse :=
  let res := Evaluate store agentID tool action params
  if res.1 then
    match alookup defaultToolURLs tool with
    | none => .plainError 400 (unknownToolMsg tool)
    | some url => .forward url action
  else .jsonError 403 ("PolicyViolation") res.2

/-- `HandleRequest` (gateway.go lines 41-129).  The path guard is the
source's `len(pathParts) < 3 || pathParts[0] != "tools"`; indexes 1 and 2
are then in range, fetched with a vacuous default. -/
def handleRequest (store : Store) (r : GatewayRequest) : GatewayResponse :=
  let parts := pathParts r.path
  if parts.length < 3 ∨ parts.getD 0 ("") ≠ ("tools") then
    .plainError 400 invalidPathMsg
  else
    let tool := parts.getD 1 ("")
    let action := parts.getD 2 ("")
    if r.agentID = "" then .plainError 400 missingHeaderMsg
    else
      match r.body with
      | .readError e => .plainError 400 (readBodyErrMsg e)
      | .malformed e => .plainError 400 (invalidJsonMsg e)
      | .empty => evaluateAndForward store r.agentID tool action []
      | .obj params => evaluateAndForward store r.agentID tool action params

/-- The store-touching operations of the engine: an `Evaluate` call
(policy.go lines 179-221, no store writes in its body), a load/reload of one
file (policy.go lines 96-118), and a remove event (policy.go lines 162-167).
These are the only code paths that read or write `pe.policies`. -/
inductive EngineOp where
  | evaluate (agentID tool action : String) (params : Params)
  | reload (filePath : String) (parsed : Option Policy)
  | removeEvent (filePath : String)

/-- One engine operation applied to the store: the resulting store, plus the
decision when the operation was an evaluation.  The `evaluate` arm returns
the store unchanged because the source's `Evaluate` body contains no
assignment to `pe.policies` (it only takes the read lock and scans). -/
def engineStep (store : Store) : EngineOp → Store × Option (Bool × String)
  | .evaluate agentID tool action params =>
    (store, some (Evaluate store agentID tool action params))
  | .reload filePath parsed => ((loadPolicyFile store filePath parsed).1, none)
  | .removeEvent filePath => (removePolicy store filePath, none)

/-! ## Concrete fixtures (used by the witness theorems) -/

/-- An unconditional grant of `files`/`read`. -/
def allowFilesRead : ToolAllowance :=
  { tool := "files", actions := ["read"], conditions := none }

/-- A valid policy granting agent `a1` the allowance `allowFilesRead`. -/
def policyA : Policy :=
  { version := "1", agents := [{ id := "a1", allow := [allowFilesRead] }] }

/-- A valid policy granting agent `b2` an unrelated allowance. -/
def policyB : Policy :=
  { version := "1",
    agents := [{ id := "b2",
                 allow := [{ tool := "payments", actions := ["create"],
                             conditions := none }] }] }

/-- A structurally invalid policy (empty version). -/
def badPolicy : Policy := { version := "", agents := [] }

/-- A one-source store publishing `policyA`. -/
def demoStore : Store := [("f1", policyA)]

/-- A two-source store: `f1` publishes `policyA`, `f2` publishes `policyB`. -/
def demoStore2 : Store := [("f1", policyA), ("f2", policyB)]

/-- A directory entry that parses and validates. -/
def goodEntry : DirEntry := { name := "good.yaml", isDir := false, parsed := some policyA }

/-- A directory entry whose contents fail validation. -/
def badEntry : DirEntry := { name := "bad.yaml", isDir := false, parsed := some badPolicy }

/-! ## Helper lemmas: `Evaluate` is first-match over `matchingAllowances` -/

theorem evalAllowList_eq_head (al : List ToolAllowance) (tool action : String) (params : Params) :
    evalAllowList al tool action params
      = (al.filter (fun a => allowMatches a tool action)).head?.map
          (fun a => decideAllowance a params) := by
  induction al with
  | nil => rfl
  | cons a rest ih =>
    cases h : allowMatches a tool action with
    | true => simp [evalAllowList, h, List.filter_cons, ih]
    | false => simp [evalAllowList, h, List.filter_cons, ih]

theorem evalAgentList_eq_head (ags : List AgentPolicy) (agentID tool action : String)
    (params : Params) :
    evalAgentList ags agentID tool action params
      = (ags.flatMap (fun ag => agentMatchList ag agentID tool action)).head?.map
          (fun a => decideAllowance a params) := by
  induction ags with
  | nil => rfl
  | cons ag rest ih =>
    cases hid : ag.id == agentID with
    | false =>
      have hid2 : ag.id ≠ agentID := by simpa using hid
      simp [evalAgentList, hid, agentMatchList, hid2, ih]
    | true =>
      have hid2 : ag.id = agentID := by simpa using hid
      cases hl : ag.allow.filter (fun a => allowMatches a tool action) with
      | nil =>
        simp [evalAgentList, hid, agentMatchList, hid2, evalAllowList_eq_head, hl, ih]
      | cons a as =>
        simp [evalAgentList, hid, agentMatchList, hid2, evalAllowList_eq_head, hl]

theorem evalPolicyList_eq_head (ps : List Policy) (agentID tool action : String)
    (params : Params) :
    evalPolicyList ps agentID tool action params
      = (ps.flatMap (fun p => policyMatchList p agentID tool action)).head?.map
          (fun a => decideAllowance a params) := by
  induction ps with
  | nil => rfl
  | cons p rest ih =>
    have h := evalAgentList_eq_head p.agents agentID tool action params
    cases hl : p.agents.flatMap (fun ag => agentMatchList ag agentID tool action) with
    | nil =>
      rw [hl] at h
      simp [evalPolicyList, h, ih, policyMatchList, hl]
    | cons a as =>
      rw [hl] at h
      simp [evalPolicyList, h, policyMatchList, hl]

theorem Evaluate_eq_matching (store : Store) (agentID tool action : String) (params : Params) :
    Evaluate store agentID tool action params
      = ((matchingAllowances store agentID tool action).head?.map
          (fun a => decideAllowance a params)).getD
            (false, notAllowedMsg agentID tool action) := by
  unfold Evaluate matchingAllowances
  rw [evalPolicyList_eq_head]
  cases ((store.map (fun kv => kv.2)).flatMap
      (fun p => policyMatchList p agentID tool action)).head? with
  | none => rfl
  | some a => rfl
/-! ## Helper lemmas: store insert / remove -/

theorem alookup_map_replace (s : Store) (k : String) (p : Policy)
    (h : s.any (fun kv => kv.1 == k) = true) :
    alookup (s.map (fun kv => if kv.1 == k then (k, p) else kv)) k = some p := by
  induction s with
  | nil => simp at h
  | cons kv rest ih =>
    cases hkv : kv.1 == k with
    | true => simp [alookup, hkv]
    | false =>
      have hrest : rest.any (fun kv => kv.1 == k) = true := by
        simpa [hkv] using h
      have hkv2 : ¬ kv.1 = k := by simpa using hkv
      simpa [alookup, hkv, hkv2] using ih hrest

theorem alookup_map_replace_other (s : Store) (k : String) (p : Policy) (k2 : String)
    (h : k2 ≠ k) :
    alookup (s.map (fun kv => if kv.1 == k then (k, p) else kv)) k2 = alookup s k2 := by
  induction s with
  | nil => rfl
  | cons kv rest ih =>
    cases hkv : kv.1 == k with
    | true =>
      have hkv2 : kv.1 = k := by simpa using hkv
      have hne : ¬ kv.1 = k2 := by rw [hkv2]; exact Ne.symm h
      have hne2 : ¬ k = k2 := Ne.symm h
      simpa [alookup, hkv, hkv2, hne, hne2] using ih
    | false =>
      by_cases hmem : kv.1 = k2
      · simp [alookup, hkv, hmem, h]
      · simpa [alookup, hkv, hmem] using ih

theorem alookup_append_single (s : Store) (k : String) (p : Policy)
    (h : s.any (fun kv => kv.1 == k) = false) :
    alookup (s ++ [(k, p)]) k = some p := by
  induction s with
  | nil => simp [alookup]
  | cons kv rest ih =>
    have hkv : (kv.1 == k) = false := by
      by_contra hc
      simp only [Bool.not_eq_false] at hc
      simp [hc] at h
    have hrest : rest.any (fun kv => kv.1 == k) = false := by
      simpa [hkv] using h
    have hkv2 : ¬ kv.1 = k := by simpa using hkv
    simpa [alookup, hkv, hkv2] using ih hrest

theorem alookup_append_single_other (s : Store) (k : String) (p : Policy) (k2 : String)
    (h : k2 ≠ k) :
    alookup (s ++ [(k, p)]) k2 = alookup s k2 := by
  induction s with
  | nil => simp [alookup, Ne.symm h]
  | cons kv rest ih =>
    by_cases hmem : kv.1 = k2
    · simp [alookup, hmem]
    · simpa [alookup, hmem] using ih

theorem alookup_storeInsert_self (s : Store) (k : String) (p : Policy) :
    alookup (storeInsert s k p) k = some p := by
  unfold storeInsert
  cases hany : s.any (fun kv => kv.1 == k) with
  | true => simpa [hany] using alookup_map_replace s k p hany
  | false => simpa [hany] using alookup_append_single s k p hany

theorem alookup_storeInsert_other (s : Store) (k : String) (p : Policy) (k2 : String)
    (h : k2 ≠ k) :
    alookup (storeInsert s k p) k2 = alookup s k2 := by
  unfold storeInsert
  cases hany : s.any (fun kv => kv.1 == k) with
  | true => simpa [hany] using alookup_map_replace_other s k p k2 h
  | false => simpa [hany] using alookup_append_single_other s k p k2 h

theorem alookup_removePolicy_self (s : Store) (n : String) :
    alookup (removePolicy s n) n = none := by
  induction s with
  | nil => rfl
  | cons kv rest ih =>
    cases hkv : kv.1 == n with
    | true => simpa [removePolicy, hkv] using ih
    | false =>
      have hkv2 : ¬ kv.1 = n := by simpa using hkv
      simpa [removePolicy, alookup, hkv, hkv2] using ih

theorem alookup_removePolicy_other (s : Store) (n k : String) (h : k ≠ n) :
    alookup (removePolicy s n) k = alookup s k := by
  induction s with
  | nil => rfl
  | cons kv rest ih =>
    cases hkv : kv.1 == n with
    | true =>
      have hkv2 : kv.1 = n := by simpa using hkv
      have hne : ¬ kv.1 = k := by rw [hkv2]; exact Ne.symm h
      simpa [removePolicy, alookup, hkv, hne] using ih
    | false =>
      have hkv2 : ¬ kv.1 = n := by simpa using hkv
      by_cases hmem : kv.1 = k
      · simp [removePolicy, List.filter_cons, alookup, hkv2, hmem, h]
      · simpa [removePolicy, List.filter_cons, alookup, hkv2, hmem] using ih
theorem matchingAllowances_cons (kv : String × Policy) (s : Store)
    (agentID tool action : String) :
    matchingAllowances (kv :: s) agentID tool action
      = policyMatchList kv.2 agentID tool action ++ matchingAllowances s agentID tool action := by
  simp [matchingAllowances]

theorem removePolicy_cons_skip (kv : String × Policy) (s : Store) (n : String)
    (h : (kv.1 == n) = true) :
    removePolicy (kv :: s) n = removePolicy s n := by
  simp [removePolicy, List.filter_cons, h]

theorem removePolicy_cons_keep (kv : String × Policy) (s : Store) (n : String)
    (h : (kv.1 == n) = false) :
    removePolicy (kv :: s) n = kv :: removePolicy s n := by
  simp [removePolicy, List.filter_cons, h]

theorem matchingAllowances_removePolicy_nil (s : Store) (n agentID tool action : String)
    (h : ∀ kv ∈ s, kv.1 ≠ n → policyMatchList kv.2 agentID tool action = []) :
    matchingAllowances (removePolicy s n) agentID tool action = [] := by
  induction s with
  | nil => rfl
  | cons kv rest ih =>
    have ihh := ih (fun kv2 hm hne => h kv2 (List.mem_cons_of_mem kv hm) hne)
    cases hkv : kv.1 == n with
    | true => rw [removePolicy_cons_skip kv rest n hkv]; exact ihh
    | false =>
      have hkv2 : ¬ kv.1 = n := by simpa using hkv
      have hnil := h kv (List.mem_cons_self kv rest) hkv2
      rw [removePolicy_cons_keep kv rest n hkv, matchingAllowances_cons, hnil,
        List.nil_append]
      exact ihh

theorem matchingAllowances_removePolicy_eq (s : Store) (n agentID tool action : String)
    (h : ∀ kv ∈ s, kv.1 = n → policyMatchList kv.2 agentID tool action = []) :
    matchingAllowances (removePolicy s n) agentID tool action
      = matchingAllowances s agentID tool action := by
  induction s with
  | nil => rfl
  | cons kv rest ih =>
    have ihh := ih (fun kv2 hm heq => h kv2 (List.mem_cons_of_mem kv hm) heq)
    cases hkv : kv.1 == n with
    | true =>
      have hkv2 : kv.1 = n := by simpa using hkv
      have hnil := h kv (List.mem_cons_self kv rest) hkv2
      rw [removePolicy_cons_skip kv rest n hkv, matchingAllowances_cons, hnil,
        List.nil_append]
      exact ihh
    | false =>
      rw [removePolicy_cons_keep kv rest n hkv, matchingAllowances_cons,
        matchingAllowances_cons, ihh]

/-! ## Helper lemmas: condition blocks -/

theorem asString_eq_some {v : Value} {s : String} (h : asString v = some s) :
    v = Value.vStr s := by
  cases v <;> simp [asString] at h
  rw [h]

theorem firstErr_eq_some {a b : Option String} {r : String} :
    firstErr a b = some r ↔ a = some r ∨ (a = none ∧ b = some r) := by
  cases a <;> simp [firstErr]

theorem firstErr_eq_none {a b : Option String} :
    firstErr a b = none ↔ a = none ∧ b = none := by
  cases a <;> simp [firstErr]

theorem checkMaxAmount_reason (conds params : Params) (r : String)
    (h : checkMaxAmount conds params = some r) :
    r = "amount must be a number" ∨ r = "max_amount must be a number" ∨
      ∃ v q, alookup conds ("max_amount") = some v ∧ toNumber v = some q ∧
        r = "Amount exceeds max_amount=" ++ formatF0 q := by
  cases h1 : alookup conds ("max_amount") with
  | none => simp [checkMaxAmount, h1] at h
  | some v =>
    cases h2 : alookup params ("amount") with
    | none => simp [checkMaxAmount, h1, h2] at h
    | some a =>
      cases h3 : toNumber a with
      | none =>
        simp [checkMaxAmount, h1, h2, h3] at h
        subst h
        exact Or.inl rfl
      | some amountFloat =>
        cases h4 : toNumber v with
        | none =>
          simp [checkMaxAmount, h1, h2, h3, h4] at h
          subst h
          exact Or.inr (Or.inl rfl)
        | some maxFloat =>
          by_cases h5 : amountFloat > maxFloat
          · simp [checkMaxAmount, h1, h2, h3, h4, h5] at h
            subst h
            exact Or.inr (Or.inr ⟨v, maxFloat, rfl, h4, rfl⟩)
          · simp [checkMaxAmount, h1, h2, h3, h4, h5] at h

theorem checkCurrencies_reason (conds params : Params) (r : String)
    (h : checkCurrencies conds params = some r) :
    r = "currency must be a string" ∨
      ∃ c, alookup params ("currency") = some (Value.vStr c) ∧
        r = "Currency " ++ c ++ " not in allowed currencies" := by
  cases h1 : (alookup conds ("currencies")).bind asList with
  | none => simp [checkCurrencies, h1] at h
  | some currencies =>
    cases h2 : alookup params ("currency") with
    | none => simp [checkCurrencies, h1, h2] at h
    | some currency =>
      cases h3 : asString currency with
      | none =>
        simp [checkCurrencies, h1, h2, h3] at h
        subst h
        exact Or.inl rfl
      | some currencyStr =>
        by_cases h4 : currencies.any (fun c =>
            match asString c with
            | some cStr => cStr == currencyStr
            | none => false)
        · simp [checkCurrencies, h1, h2, h3, h4] at h
        · simp [checkCurrencies, h1, h2, h3, h4] at h
          subst h
          refine Or.inr ⟨currencyStr, ?_, rfl⟩
          rw [asString_eq_some h3]

theorem checkFolderPrefix_reason (conds params : Params) (r : String)
    (h : checkFolderPrefix conds params = some r) :
    r = "path must be a string" ∨
      ∃ s, alookup conds ("folder_prefix") = some (Value.vStr s) ∧
        r = "Path must start with prefix " ++ s := by
  cases h1 : (alookup conds ("folder_prefix")).bind asString with
  | none => simp [checkFolderPrefix, h1] at h
  | some pfx =>
    cases h2 : alookup params ("path") with
    | none => simp [checkFolderPrefix, h1, h2] at h
    | some path =>
      cases h3 : asString path with
      | none =>
        simp [checkFolderPrefix, h1, h2, h3] at h
        subst h
        exact Or.inl rfl
      | some pathStr =>
        by_cases h4 : pfx.isPrefixOf pathStr
        · simp [checkFolderPrefix, h1, h2, h3, h4] at h
        · simp [checkFolderPrefix, h1, h2, h3, h4] at h
          subst h
          refine Or.inr ⟨pfx, ?_, rfl⟩
          cases h5 : alookup conds ("folder_prefix") with
          | none => rw [h5] at h1; exact absurd h1 (by simp)
          | some v =>
            rw [h5] at h1
            simp only [Option.some_bind] at h1
            rw [asString_eq_some h1]

/-- Failing or skipped directory entries leave the store untouched
(policy.go lines 86-89: the error is only logged). -/
theorem loadStep_id (baseDir : String) (st : Store) (e : DirEntry)
    (hfail : e.parsed = none ∨ ∃ q, e.parsed = some q ∧ validatePolicy q ≠ none) :
    loadStep baseDir st e = st := by
  unfold loadStep
  by_cases hs : skipEntry e
  · simp [hs]
  · simp only [hs, Bool.false_eq_true, if_false]
    rcases hfail with hnone | ⟨q, hq, hv⟩
    · rw [hnone]; rfl
    · cases hvv : validatePolicy q with
      | none => exact absurd hvv hv
      | some err => simp [hq, loadPolicyFile, hvv]

/-! ## Claims -/

/-- C1: the result of `Evaluate` is decided by the first stored allowance
(in encounter order) whose agent, tool and action all match: `(true, "")`
when it has no conditions or its conditions pass, `(false, reason)` when a
condition fails, independent of every later matching allowance; and when no
allowance matches at all the result is exactly the default denial message. -/
theorem evaluate_first_match_decides (store : Store) (agentID tool action : String)
    (params : Params) :
    (matchingAllowances store agentID tool action = [] →
       Evaluate store agentID tool action params
         = (false, notAllowedMsg agentID tool action))
  ∧ (∀ a rest, matchingAllowances store agentID tool action = a :: rest →
       Evaluate store agentID tool action params = decideAllowance a params
       ∧ (a.conditions = none →
           Evaluate store agentID tool action params = (true, ""))
       ∧ (∀ conds, a.conditions = some conds →
           (checkConditions conds params = none →
             Evaluate store agentID tool action params = (true, ""))
           ∧ (∀ e, checkConditions conds params = some e →
             Evaluate store agentID tool action params = (false, e)))) := by
  constructor
  · intro h
    rw [Evaluate_eq_matching, h]
    rfl
  · intro a rest h
    have he : Evaluate store agentID tool action params = decideAllowance a params := by
      rw [Evaluate_eq_matching, h]
      rfl
    refine ⟨he, ?_, ?_⟩
    · intro hc
      rw [he]
      simp [decideAllowance, hc]
    · intro conds hc
      constructor
      · intro hok
        rw [he]
        simp [decideAllowance, hc, hok]
      · intro e he2
        rw [he]
        simp [decideAllowance, hc, he2]

/-- Witness for C1: on a store whose only matching allowance is the
unconditional `allowFilesRead`, evaluation allows; on the empty store it
denies with the default message. -/
theorem evaluate_first_match_decides_witness :
    Evaluate demoStore ("a1") ("files") ("read") [] = (true, "")
  ∧ Evaluate [] ("a1") ("files") ("read") []
      = (false, notAllowedMsg ("a1") ("files") ("read")) :=
  ⟨(((evaluate_first_match_decides demoStore ("a1") ("files") ("read") []).2
      allowFilesRead [] rfl).2.1) rfl,
   (evaluate_first_match_decides [] ("a1") ("files") ("read") []).1 rfl⟩

theorem checkMaxAmount_vacuous (conds params : Params)
    (h : alookup params ("amount") = none) :
    checkMaxAmount conds params = none := by
  cases h1 : alookup conds ("max_amount") with
  | none => simp [checkMaxAmount, h1]
  | some v => simp [checkMaxAmount, h1, h]

theorem checkCurrencies_vacuous (conds params : Params)
    (h : alookup params ("currency") = none) :
    checkCurrencies conds params = none := by
  cases h1 : (alookup conds ("currencies")).bind asList with
  | none => simp [checkCurrencies, h1]
  | some l => simp [checkCurrencies, h1, h]

theorem checkFolderPrefix_vacuous (conds params : Params)
    (h : alookup params ("path") = none) :
    checkFolderPrefix conds params = none := by
  cases h1 : (alookup conds ("folder_prefix")).bind asString with
  | none => simp [checkFolderPrefix, h1]
  | some s => simp [checkFolderPrefix, h1, h]

/-- C2: each condition kind is checked only when its request parameter is
present; an absent parameter makes that condition pass vacuously, whatever
the configured value is — in particular a `currencies` condition can never
fail when `params` has no `currency` key. -/
theorem conditions_vacuous_when_param_absent (conds params : Params) :
    (alookup params ("amount") = none → checkMaxAmount conds params = none)
  ∧ (alookup params ("currency") = none → checkCurrencies conds params = none)
  ∧ (alookup params ("path") = none → checkFolderPrefix conds params = none)
  ∧ (alookup params ("amount") = none → alookup params ("currency") = none →
      alookup params ("path") = none → checkConditions conds params = none) := by
  refine ⟨checkMaxAmount_vacuous conds params, checkCurrencies_vacuous conds params,
    checkFolderPrefix_vacuous conds params, ?_⟩
  intro h1 h2 h3
  unfold checkConditions
  rw [checkMaxAmount_vacuous conds params h1, checkCurrencies_vacuous conds params h2,
    checkFolderPrefix_vacuous conds params h3]
  rfl

/-- Witness for C2: `currencies=[USD,EUR]` with `currency` absent from the
parameters passes, exactly the spec's example. -/
theorem conditions_vacuous_when_param_absent_witness :
    checkConditions
        [(("currencies"), Value.vList [Value.vStr ("USD"), Value.vStr ("EUR")])]
        [] = none
  ∧ checkCurrencies
        [(("currencies"), Value.vList [Value.vStr ("USD"), Value.vStr ("EUR")])]
        [(("amount"), Value.vInt 7)] = none :=
  ⟨(conditions_vacuous_when_param_absent
      [(("currencies"), Value.vList [Value.vStr ("USD"), Value.vStr ("EUR")])]
      []).2.2.2 rfl rfl rfl,
   (conditions_vacuous_when_param_absent
      [(("currencies"), Value.vList [Value.vStr ("USD"), Value.vStr ("EUR")])]
      [(("amount"), Value.vInt 7)]).2.1 rfl⟩

/-- C3: with a numeric bound `B` configured under `max_amount` and a numeric
`amount` `A` supplied, the check passes exactly when `A ≤ B`, and on `A > B`
it fails with a reason naming the configured bound. -/
theorem max_amount_boundary (conds params : Params) (vB vA : Value) (B A : Rat)
    (hB : alookup conds ("max_amount") = some vB) (hBn : toNumber vB = some B)
    (hA : alookup params ("amount") = some vA) (hAn : toNumber vA = some A) :
    (checkMaxAmount conds params = none ↔ A ≤ B)
  ∧ (A > B → checkMaxAmount conds params
      = some ("Amount exceeds max_amount=" ++ formatF0 B)) := by
  constructor
  · by_cases h : A > B
    · simp only [checkMaxAmount, hB, hA, hAn, hBn, if_pos h]
      exact iff_of_false (by simp) (not_le.mpr h)
    · simp only [checkMaxAmount, hB, hA, hAn, hBn, if_neg h]
      simpa using not_lt.mp h
  · intro h
    simp only [checkMaxAmount, hB, hA, hAn, hBn, if_pos h]

/-- Witness for C3: `max_amount=5000` allows `amount=5000`, denies
`amount=5001` with a reason rendering the bound as `5000`, which occurs
verbatim in the reason string. -/
theorem max_amount_boundary_witness :
    checkMaxAmount [(("max_amount"), Value.vInt 5000)] [(("amount"), Value.vInt 5000)]
      = none
  ∧ checkMaxAmount [(("max_amount"), Value.vInt 5000)] [(("amount"), Value.vInt 5001)]
      = some ("Amount exceeds max_amount=" ++ formatF0 ((5000 : Rat)))
  ∧ formatF0 ((5000 : Rat)) = "5000"
  ∧ (∃ pre suf, "Amount exceeds max_amount=" ++ formatF0 ((5000 : Rat))
      = pre ++ "5000" ++ suf) := by
  refine ⟨?_, ?_, ?_, ?_⟩
  · exact (max_amount_boundary [(("max_amount"), Value.vInt 5000)]
      [(("amount"), Value.vInt 5000)] (Value.vInt 5000) (Value.vInt 5000)
      ((5000 : Rat)) ((5000 : Rat)) rfl rfl rfl rfl).1.mpr le_rfl
  · exact (max_amount_boundary [(("max_amount"), Value.vInt 5000)]
      [(("amount"), Value.vInt 5001)] (Value.vInt 5000) (Value.vInt 5001)
      ((5000 : Rat)) ((5001 : Rat)) rfl rfl rfl rfl).2
      (by norm_num)
  · rfl
  · exact ⟨"Amount exceeds max_amount=", "", rfl⟩

/-- Counterexample to C4: two parameter maps that fail the same
`currencies` condition of the same allowance, differing only in their
currency value, receive *different* denial reasons, and the reason embeds
the raw request parameter (`GBP`) verbatim. -/
theorem currency_reason_leaks_param :
    checkConditions [(("currencies"), Value.vList [Value.vStr ("USD")])]
        [(("currency"), Value.vStr ("GBP"))]
      = some ("Currency GBP not in allowed currencies")
  ∧ checkConditions [(("currencies"), Value.vList [Value.vStr ("USD")])]
        [(("currency"), Value.vStr ("JPY"))]
      = some ("Currency JPY not in allowed currencies")
  ∧ ("Currency GBP not in allowed currencies" : String)
      ≠ ("Currency JPY not in allowed currencies" : String)
  ∧ (∃ pre suf, "Currency GBP not in allowed currencies" = pre ++ "GBP" ++ suf) :=
  ⟨rfl, rfl, by decide, ⟨"Currency ", " not in allowed currencies", rfl⟩⟩

/-- C4 (amended): every denial reason produced by the condition checker is
either one of the fixed type-mismatch texts or is built purely from the
configured policy values (the numeric bound, the folder prefix) — with one
exception: the currencies-membership failure, whose reason embeds the
request's raw `currency` parameter value.  In particular any two parameter
maps failing the same condition in the same mode receive the same reason,
except in that currencies-membership mode. -/
theorem denial_reason_characterization (conds params : Params) (r : String)
    (h : checkConditions conds params = some r) :
    r = "amount must be a number" ∨ r = "max_amount must be a number" ∨
    (∃ v q, alookup conds ("max_amount") = some v ∧ toNumber v = some q ∧
        r = "Amount exceeds max_amount=" ++ formatF0 q) ∨
    r = "currency must be a string" ∨
    (∃ c, alookup params ("currency") = some (Value.vStr c) ∧
        r = "Currency " ++ c ++ " not in allowed currencies") ∨
    r = "path must be a string" ∨
    (∃ s, alookup conds ("folder_prefix") = some (Value.vStr s) ∧
        r = "Path must start with prefix " ++ s) := by
  unfold checkConditions at h
  rcases firstErr_eq_some.mp h with h1 | ⟨h1, h2⟩
  · rcases checkMaxAmount_reason conds params r h1 with hr | hr | hr
    · exact Or.inl hr
    · exact Or.inr (Or.inl hr)
    · exact Or.inr (Or.inr (Or.inl hr))
  · rcases firstErr_eq_some.mp h2 with h2a | ⟨h2a, h2b⟩
    · rcases checkCurrencies_reason conds params r h2a with hr | hr
      · exact Or.inr (Or.inr (Or.inr (Or.inl hr)))
      · exact Or.inr (Or.inr (Or.inr (Or.inr (Or.inl hr))))
    · rcases checkFolderPrefix_reason conds params r h2b with hr | hr
      · exact Or.inr (Or.inr (Or.inr (Or.inr (Or.inr (Or.inl hr)))))
      · exact Or.inr (Or.inr (Or.inr (Or.inr (Or.inr (Or.inr hr)))))

/-- Witness for C4's amended characterization, at the concrete leaking
input: the reason for a `GBP`-vs-`[USD]` currencies failure falls into the
currency-embedding disjunct. -/
theorem denial_reason_characterization_witness :
    ("Currency GBP not in allowed currencies" = "amount must be a number") ∨
    ("Currency GBP not in allowed currencies" = "max_amount must be a number") ∨
    (∃ v q, alookup [(("currencies"), Value.vList [Value.vStr ("USD")])] ("max_amount")
          = some v ∧ toNumber v = some q ∧
        "Currency GBP not in allowed currencies"
          = "Amount exceeds max_amount=" ++ formatF0 q) ∨
    ("Currency GBP not in allowed currencies" = "currency must be a string") ∨
    (∃ c, alookup [(("currency"), Value.vStr ("GBP"))] ("currency")
          = some (Value.vStr c) ∧
        "Currency GBP not in allowed currencies"
          = "Currency " ++ c ++ " not in allowed currencies") ∨
    ("Currency GBP not in allowed currencies" = "path must be a string") ∨
    (∃ s, alookup [(("currencies"), Value.vList [Value.vStr ("USD")])] ("folder_prefix")
          = some (Value.vStr s) ∧
        "Currency GBP not in allowed currencies"
          = "Path must start with prefix " ++ s) :=
  denial_reason_characterization
    [(("currencies"), Value.vList [Value.vStr ("USD")])]
    [(("currency"), Value.vStr ("GBP"))]
    ("Currency GBP not in allowed currencies") rfl

/-- C5: loading is isolated and atomic per source.  A directory entry that
fails to parse or validate contributes nothing: the directory load behaves
exactly as if the entry were absent, so every other file still loads.  A
failed parse leaves the store untouched, a failed validation leaves the
store untouched (the previously-good entry for that path, if any, is kept),
and only a successfully validated policy is published — wholesale, at its
own key, leaving every other key unchanged. -/
theorem load_isolation_last_good (store : Store) (baseDir : String)
    (es1 es2 : List DirEntry) (e : DirEntry) (filePath : String) (p : Policy) :
    ((e.parsed = none ∨ ∃ q, e.parsed = some q ∧ validatePolicy q ≠ none) →
        loadAllPolicies store baseDir (es1 ++ e :: es2)
          = loadAllPolicies store baseDir (es1 ++ es2))
  ∧ (loadPolicyFile store filePath none).1 = store
  ∧ (validatePolicy p ≠ none → (loadPolicyFile store filePath (some p)).1 = store)
  ∧ (validatePolicy p = none →
        (loadPolicyFile store filePath (some p)).1 = storeInsert store filePath p
        ∧ alookup (storeInsert store filePath p) filePath = some p
        ∧ ∀ k, k ≠ filePath →
            alookup (storeInsert store filePath p) k = alookup store k) := by
  refine ⟨?_, rfl, ?_, ?_⟩
  · intro hfail
    unfold loadAllPolicies
    rw [List.foldl_append, List.foldl_append, List.foldl_cons,
      loadStep_id baseDir (List.foldl (loadStep baseDir) store es1) e hfail]
  · intro hv
    cases hvv : validatePolicy p with
    | none => exact absurd hvv hv
    | some err => simp [loadPolicyFile, hvv]
  · intro hv
    refine ⟨by simp [loadPolicyFile, hv], alookup_storeInsert_self store filePath p,
      fun k hk => alookup_storeInsert_other store filePath p k hk⟩

/-- Witness for C5: with an invalid file (`badEntry`, empty version) ahead
of a valid one, the directory load equals the load without the bad file;
a failed reload of `f1` leaves the previously published `policyA` in place;
a successful load publishes at its key without touching other keys. -/
theorem load_isolation_last_good_witness :
    loadAllPolicies [] ("d") [badEntry, goodEntry]
      = loadAllPolicies [] ("d") [goodEntry]
  ∧ (loadPolicyFile [(("f1"), policyA)] ("f1") (some badPolicy)).1
      = [(("f1"), policyA)]
  ∧ (loadPolicyFile [(("f1"), policyA)] ("f1") none).1 = [(("f1"), policyA)]
  ∧ alookup (storeInsert [(("f1"), policyA)] ("f2") policyB) ("f1")
      = alookup [(("f1"), policyA)] ("f1") :=
  ⟨(load_isolation_last_good [] ("d") [] [goodEntry] badEntry ("") policyA).1
      (Or.inr ⟨badPolicy, rfl, by decide⟩),
   (load_isolation_last_good [(("f1"), policyA)] ("d") [] [] badEntry ("f1")
      badPolicy).2.2.1 (by decide),
   (load_isolation_last_good [(("f1"), policyA)] ("d") [] [] badEntry ("f1")
      badPolicy).2.1,
   ((load_isolation_last_good [(("f1"), policyA)] ("d") [] [] goodEntry ("f2")
      policyB).2.2.2 (by decide)).2.2 ("f1") (by decide)⟩

/-- C6: a remove event deletes the source's store entry unconditionally and
leaves every other entry untouched; afterwards an agent whose only matching
allowances lived in that source is denied with the default message, and any
evaluation none of whose matching allowances came from that source is
completely unchanged. -/
theorem remove_source_frame (store : Store) (name agentID tool action : String)
    (params : Params) :
    alookup (removePolicy store name) name = none
  ∧ (∀ k, k ≠ name → alookup (removePolicy store name) k = alookup store k)
  ∧ ((∀ kv, kv ∈ store → kv.1 ≠ name →
        policyMatchList kv.2 agentID tool action = []) →
      Evaluate (removePolicy store name) agentID tool action params
        = (false, notAllowedMsg agentID tool action))
  ∧ ((∀ kv, kv ∈ store → kv.1 = name →
        policyMatchList kv.2 agentID tool action = []) →
      Evaluate (removePolicy store name) agentID tool action params
        = Evaluate store agentID tool action params) := by
  refine ⟨alookup_removePolicy_self store name,
    fun k hk => alookup_removePolicy_other store name k hk, ?_, ?_⟩
  · intro h
    rw [Evaluate_eq_matching,
      matchingAllowances_removePolicy_nil store name agentID tool action h]
    rfl
  · intro h
    rw [Evaluate_eq_matching,
      matchingAllowances_removePolicy_eq store name agentID tool action h,
      ← Evaluate_eq_matching]

/-- Witness for C6: removing `f1` from the two-source store denies agent
`a1` (whose only grant lived in `f1`) with the default message, removes the
`f1` entry, and removing `f2` instead leaves `a1` evaluations unchanged. -/
theorem remove_source_frame_witness :
    Evaluate (removePolicy demoStore2 ("f1")) ("a1") ("files") ("read") []
      = (false, notAllowedMsg ("a1") ("files") ("read"))
  ∧ alookup (removePolicy demoStore2 ("f1")) ("f1") = none
  ∧ Evaluate (removePolicy demoStore2 ("f2")) ("a1") ("files") ("read") []
      = Evaluate demoStore2 ("a1") ("files") ("read") [] := by
  refine ⟨?_, ?_, ?_⟩
  · refine (remove_source_frame demoStore2 ("f1") ("a1") ("files") ("read") []).2.2.1 ?_
    intro kv hm hne
    simp only [demoStore2, List.mem_cons, List.not_mem_nil, or_false] at hm
    rcases hm with rfl | rfl
    · exact absurd rfl hne
    · rfl
  · exact (remove_source_frame demoStore2 ("f1") ("a1") ("files") ("read") []).1
  · refine (remove_source_frame demoStore2 ("f2") ("a1") ("files") ("read") []).2.2.2 ?_
    intro kv hm heq
    simp only [demoStore2, List.mem_cons, List.not_mem_nil, or_false] at hm
    rcases hm with rfl | rfl
    · exact absurd heq (by decide)
    · rfl

/-- Counterexample to C7: a configured `currencies` value that is not a
list, and a configured `folder_prefix` that is not a string, are *not*
condition failures — the failed type assertion silently skips the whole
block and the conditions pass, even though the supplied parameter would
otherwise have been checked (here `GBP` against a malformed set). -/
theorem config_type_mismatch_silently_passes :
    checkConditions [(("currencies"), Value.vStr ("USD"))]
        [(("currency"), Value.vStr ("GBP"))] = none
  ∧ checkConditions [(("folder_prefix"), Value.vInt 3)]
        [(("path"), Value.vStr ("/etc/passwd"))] = none :=
  ⟨rfl, rfl⟩

/-- C7 (amended): the condition checker is a total function and type
mismatches on the *request* side (non-numeric `amount`, non-string
`currency` or `path`) as well as a non-numeric configured `max_amount`
(with a numeric `amount` supplied) are condition failures with a fixed
reason; but a configured `currencies` value that is not a list, or a
configured `folder_prefix` that is not a string, silently skips its block
(vacuous pass) instead of failing. -/
theorem type_mismatch_behavior (conds params : Params) (v a : Value) :
    (alookup conds ("max_amount") = some v → alookup params ("amount") = some a →
       toNumber a = none →
       checkMaxAmount conds params = some ("amount must be a number"))
  ∧ (∀ A, alookup conds ("max_amount") = some v →
       alookup params ("amount") = some a →
       toNumber a = some A → toNumber v = none →
       checkMaxAmount conds params = some ("max_amount must be a number"))
  ∧ (∀ l, alookup conds ("currencies") = some v → asList v = some l →
       alookup params ("currency") = some a → asString a = none →
       checkCurrencies conds params = some ("currency must be a string"))
  ∧ (∀ s, alookup conds ("folder_prefix") = some v → asString v = some s →
       alookup params ("path") = some a → asString a = none →
       checkFolderPrefix conds params = some ("path must be a string"))
  ∧ (alookup conds ("currencies") = some v → asList v = none →
       checkCurrencies conds params = none)
  ∧ (alookup conds ("folder_prefix") = some v → asString v = none →
       checkFolderPrefix conds params = none) := by
  refine ⟨?_, ?_, ?_, ?_, ?_, ?_⟩
  · intro h1 h2 h3
    simp [checkMaxAmount, h1, h2, h3]
  · intro A h1 h2 h3 h4
    simp [checkMaxAmount, h1, h2, h3, h4]
  · intro l h1 hl h2 h3
    simp [checkCurrencies, h1, hl, h2, h3]
  · intro s h1 hs h2 h3
    simp [checkFolderPrefix, h1, hs, h2, h3]
  · intro h1 hl
    simp [checkCurrencies, h1, hl]
  · intro h1 hs
    simp [checkFolderPrefix, h1, hs]

/-- Witness for C7's amended statement: a non-numeric `amount` fails with
its fixed reason, while a non-list configured `currencies` silently
passes. -/
theorem type_mismatch_behavior_witness :
    checkMaxAmount [(("max_amount"), Value.vInt 5000)]
        [(("amount"), Value.vStr ("lots"))]
      = some ("amount must be a number")
  ∧ checkCurrencies [(("currencies"), Value.vStr ("USD"))]
        [(("currency"), Value.vStr ("GBP"))] = none :=
  ⟨(type_mismatch_behavior [(("max_amount"), Value.vInt 5000)]
      [(("amount"), Value.vStr ("lots"))]
      (Value.vInt 5000) (Value.vStr ("lots"))).1 rfl rfl rfl,
   (type_mismatch_behavior [(("currencies"), Value.vStr ("USD"))]
      [(("currency"), Value.vStr ("GBP"))]
      (Value.vStr ("USD")) (Value.vStr ("GBP"))).2.2.2.2.1 rfl rfl⟩

/-- The path guard of `handleRequest` rejects with `400` exactly when it
holds (gateway.go lines 46-49). -/
theorem handleRequest_badPath (store : Store) (r : GatewayRequest)
    (h : (pathParts r.path).length < 3 ∨ (pathParts r.path).getD 0 ("") ≠ ("tools")) :
    handleRequest store r = .plainError 400 invalidPathMsg := by
  unfold handleRequest
  simp only []
  rw [if_pos h]

/-- When the path parses into `tools`/tool/action, the guard does not
fire. -/
theorem pathGuard_false (r : GatewayRequest) (tool action : String)
    (rest : List String)
    (hp : pathParts r.path = ("tools") :: tool :: action :: rest) :
    ¬((pathParts r.path).length < 3 ∨ (pathParts r.path).getD 0 ("") ≠ ("tools")) := by
  rw [hp]
  simp [List.getD]

/-- Counterexample to C8: a request naming a tool with no registered base
address is answered with `403` (the policy denial), not `400` — the
unknown-tool check runs only after an allow; and a path with an extra
fourth segment is accepted and forwarded rather than rejected with `400`. -/
theorem unknown_tool_denied_gets_403 :
    handleRequest [] { path := "/tools/ghost/run", agentID := "a1", body := .empty }
      = .jsonError 403 ("PolicyViolation") (notAllowedMsg ("a1") ("ghost") ("run"))
  ∧ alookup defaultToolURLs ("ghost") = none
  ∧ handleRequest demoStore
      { path := "/tools/files/read/extra", agentID := "a1", body := .empty }
      = .forward ("http://localhost:8082") ("read") :=
  ⟨rfl, rfl, rfl⟩

/-- C8 (amended): the gateway answers `400` for a path with fewer than
three segments or whose first segment is not `tools`, for an absent agent
header, for an unreadable or malformed JSON body, and for an unknown tool
*when the evaluation allowed the call*; every policy denial — including one
for an unknown tool — is answered `403` with the JSON body
`{"error":"PolicyViolation","reason":<the evaluator reason>}`. -/
theorem gateway_status_codes (store : Store) (r : GatewayRequest)
    (tool action : String) (rest : List String) (params : Params)
    (reason e : String) :
    ((pathParts r.path).length < 3 ∨ (pathParts r.path).getD 0 ("") ≠ ("tools") →
        handleRequest store r = .plainError 400 invalidPathMsg)
  ∧ (pathParts r.path = ("tools") :: tool :: action :: rest → r.agentID = "" →
        handleRequest store r = .plainError 400 missingHeaderMsg)
  ∧ (pathParts r.path = ("tools") :: tool :: action :: rest → r.agentID ≠ "" →
        r.body = .readError e →
        handleRequest store r = .plainError 400 (readBodyErrMsg e))
  ∧ (pathParts r.path = ("tools") :: tool :: action :: rest → r.agentID ≠ "" →
        r.body = .malformed e →
        handleRequest store r = .plainError 400 (invalidJsonMsg e))
  ∧ (pathParts r.path = ("tools") :: tool :: action :: rest → r.agentID ≠ "" →
        r.body = .obj params →
        Evaluate store r.agentID tool action params = (false, reason) →
        handleRequest store r = .jsonError 403 ("PolicyViolation") reason)
  ∧ (pathParts r.path = ("tools") :: tool :: action :: rest → r.agentID ≠ "" →
        r.body = .empty →
        Evaluate store r.agentID tool action [] = (false, reason) →
        handleRequest store r = .jsonError 403 ("PolicyViolation") reason)
  ∧ (pathParts r.path = ("tools") :: tool :: action :: rest → r.agentID ≠ "" →
        r.body = .obj params →
        (Evaluate store r.agentID tool action params).1 = true →
        alookup defaultToolURLs tool = none →
        handleRequest store r = .plainError 400 (unknownToolMsg tool)) := by
  refine ⟨handleRequest_badPath store r, ?_, ?_, ?_, ?_, ?_, ?_⟩
  · intro hp hid
    unfold handleRequest
    simp only []
    rw [if_neg (pathGuard_false r tool action rest hp), hp]
    simp [hid, List.getD]
  · intro hp hid hb
    unfold handleRequest
    simp only []
    rw [if_neg (pathGuard_false r tool action rest hp), hp]
    simp [hid, hb, List.getD]
  · intro hp hid hb
    unfold handleRequest
    simp only []
    rw [if_neg (pathGuard_false r tool action rest hp), hp]
    simp [hid, hb, List.getD]
  · intro hp hid hb heval
    unfold handleRequest
    simp only []
    rw [if_neg (pathGuard_false r tool action rest hp), hp]
    simp [hid, hb, List.getD, evaluateAndForward, heval]
  · intro hp hid hb heval
    unfold handleRequest
    simp only []
    rw [if_neg (pathGuard_false r tool action rest hp), hp]
    simp [hid, hb, List.getD, evaluateAndForward, heval]
  · intro hp hid hb heval hurl
    unfold handleRequest
    simp only []
    rw [if_neg (pathGuard_false r tool action rest hp), hp]
    simp [hid, hb, List.getD, evaluateAndForward, heval, hurl]

/-- Witness for C8's amended statement at concrete requests: bad path,
missing header, and an evaluator denial each get their status. -/
theorem gateway_status_codes_witness :
    handleRequest [] { path := "/oops", agentID := "", body := .empty }
      = .plainError 400 invalidPathMsg
  ∧ handleRequest [] { path := "/tools/payments/create", agentID := "", body := .empty }
      = .plainError 400 missingHeaderMsg
  ∧ handleRequest [] { path := "/tools/payments/create", agentID := "a1", body := .obj [] }
      = .jsonError 403 ("PolicyViolation")
          (notAllowedMsg ("a1") ("payments") ("create")) := by
  refine ⟨?_, ?_, ?_⟩
  · exact (gateway_status_codes []
      { path := "/oops", agentID := "", body := .empty }
      ("") ("") [] [] ("") ("")).1 (Or.inl (by decide))
  · exact (gateway_status_codes []
      { path := "/tools/payments/create", agentID := "", body := .empty }
      ("payments") ("create") [] [] ("") ("")).2.1 (by decide) rfl
  · exact (gateway_status_codes []
      { path := "/tools/payments/create", agentID := "a1", body := .obj [] }
      ("payments") ("create") [] [] (notAllowedMsg ("a1") ("payments") ("create"))
      ("")).2.2.2.2.1 (by decide) (by decide) rfl rfl

/-- C10: an `Evaluate` call leaves the policy store exactly unchanged — the
engine step for an evaluation returns the same store (same keys, same
policies under every key) together with the pure decision, and every engine
operation either leaves the store unchanged or is a reload or a
remove event: only loading and remove-event handling ever modify it. -/
theorem evaluate_read_only (store : Store) (agentID tool action : String)
    (params : Params) :
    (engineStep store (.evaluate agentID tool action params)).1 = store
  ∧ (∀ k, alookup (engineStep store (.evaluate agentID tool action params)).1 k
        = alookup store k)
  ∧ (engineStep store (.evaluate agentID tool action params)).2
      = some (Evaluate store agentID tool action params)
  ∧ ∀ op : EngineOp, (engineStep store op).1 = store
      ∨ (∃ fp parsed, op = EngineOp.reload fp parsed)
      ∨ (∃ fp, op = EngineOp.removeEvent fp) := by
  refine ⟨rfl, fun k => rfl, rfl, ?_⟩
  intro op
  cases op with
  | evaluate a t ac p => exact Or.inl rfl
  | reload fp parsed => exact Or.inr (Or.inl ⟨fp, parsed, rfl⟩)
  | removeEvent fp => exact Or.inr (Or.inr ⟨fp, rfl⟩)
